import Mathlib

/-!
Verification of frfix.c, an LD_PRELOAD interposition shim for Fieldrunners.

The shim intercepts a handful of ALSA and GLUT entry points.  Each intercepted
C function is embedded here as a pure Lean function: process-wide mutable state
(the stored geometry, the fullscreen flag, the resolved-symbol cache slots) is
passed explicitly, and calls made to the real libraries or to the stored
application callbacks are returned as explicit call records, so that theorems
can speak about exactly which calls happen and with which arguments.

C integer division truncates toward zero; it is embedded as `c_div` below
(`Int.tdiv`).  All divisions in frfix.c have nonnegative operands on the
inputs the claims are about, where truncating division coincides with
Euclidean division.
-/

/-- C99 integer division: truncation toward zero. -/
def c_div (a b : Int) : Int := Int.tdiv a b

theorem c_div_eq_ediv {a b : Int} (ha : 0 ≤ a) (hb : 0 ≤ b) : c_div a b = a / b :=
  Int.tdiv_eq_ediv ha hb

/-! ## Viewport geometry (CHANGERES group)

frfix.c keeps four process-wide longs `act_w, act_h, act_xoff, act_yoff`,
recomputed by `init_manglers` on every resize event. -/

/-- The four geometry globals `act_w`, `act_h`, `act_xoff`, `act_yoff` of frfix.c. -/
structure Geom where
  act_w : Int
  act_h : Int
  act_xoff : Int
  act_yoff : Int
deriving DecidableEq, Repr

/-- C globals are zero-initialized: the geometry state at process start. -/
def initial_geom : Geom := ⟨0, 0, 0, 0⟩

/-- Embedding of `init_manglers(int w, int h)` from frfix.c (lines 95-115).
Computes the stored geometry; the subsequent `glvp(act_xoff, act_yoff, act_w,
act_h)` call passes exactly these four values to the real glViewport.
C evaluates `h * 16/9` as `(h*16)/9` and `w * 9/16` as `(w*9)/16`. -/
def init_manglers (w h : Int) : Geom :=
  if w = c_div (h * 16) 9 then
    ⟨w, h, 0, 0⟩
  else if w < c_div (h * 16) 9 then
    ⟨w, c_div (w * 9) 16, 0, c_div (h - c_div (w * 9) 16) 2⟩
  else
    ⟨c_div (h * 16) 9, h, c_div (w - c_div (h * 16) 9) 2, 0⟩

/-! ## Audio callback wrapper (FIXDELAY group) -/

/-- Calls observable from `fake_callback`: the combined
`snd_pcm_avail_delay` query, and an invocation of the stored Fieldrunners
callback `fr_callback` with its handler argument (handlers are modelled as
abstract ids). -/
inductive AudioCall where
  | availDelay : AudioCall
  | invokeFr : Nat → AudioCall
deriving DecidableEq, Repr

/-- Embedding of `fake_callback` from frfix.c (lines 49-62).  `fixdelay` is the
compile-time constant FIXDELAY; `delay` is the value the
`snd_pcm_avail_delay` query writes into the local `delay` variable.  The
query is always performed (its `avail` result is discarded by the C code),
then the stored callback is invoked iff `delay < FIXDELAY`. -/
def fake_callback (fixdelay delay : Int) (ahandler : Nat) : List AudioCall :=
  AudioCall.availDelay ::
    (if delay < fixdelay then [AudioCall.invokeFr ahandler] else [])

/-! ## Keyboard wrapper -/

/-- Calls observable from `faked_kbfunc`: `glutLeaveMainLoop()`,
`glutFullScreen()`, the real (dlsym-resolved) `glutReshapeWindow`, and a
forward to the stored application handler `fr_kbfunc`. -/
inductive KbCall where
  | leaveMainLoop : KbCall
  | fullScreen : KbCall
  | reshapeWindow : Int → Int → KbCall
  | forward : Nat → Int → Int → KbCall
deriving DecidableEq, Repr

/-- Embedding of `faked_kbfunc(unsigned char key, int x, int y)` from frfix.c
(lines 130-149).  `fs` is the process-wide fullscreen flag; the result is
the updated flag together with the calls made.  `'q'` is 113, `'f'` is 102. -/
def faked_kbfunc (fs : Bool) (key : Nat) (x y : Int) : Bool × List KbCall :=
  if key = 113 then
    (fs, [KbCall.leaveMainLoop])
  else if key = 102 then
    if fs then (false, [KbCall.reshapeWindow 1280 720])
    else (true, [KbCall.fullScreen])
  else
    (fs, [KbCall.forward key x y])

/-! ## Mouse wrappers -/

/-- Embedding of `faked_mousefunc` from frfix.c (lines 163-165): the arguments
forwarded to the stored `fr_mousefunc`, given the stored offsets. -/
def faked_mousefunc (xoff yoff button state x y : Int) : Int × Int × Int × Int :=
  (button, state, x - xoff, y - yoff)

/-- Embedding of `faked_motionfunc` from frfix.c (line 167): the arguments
forwarded to the stored `fr_motionfunc`, given the stored offsets. -/
def faked_motionfunc (xoff yoff x y : Int) : Int × Int :=
  (x - xoff, y - yoff)

/-! ## Audio device redirection -/

/-- The argument tuple handed to the real `snd_pcm_open` (the `pcm`
out-parameter is modelled as an abstract id). -/
structure PcmOpenCall where
  pcm : Nat
  name : String
  stream : Int
  mode : Int
deriving DecidableEq, Repr

/-- Embedding of the interposed `snd_pcm_open` from frfix.c (lines 26-38):
given the resolved real function, it returns the wrapper's return value
together with the argument tuple actually passed to the real function.
The caller-supplied `name` is discarded in favor of "default". -/
def snd_pcm_open (real_func : Nat → String → Int → Int → Int)
    (pcm : Nat) (name : String) (stream mode : Int) : Int × PcmOpenCall :=
  (real_func pcm "default" stream mode, ⟨pcm, "default", stream, mode⟩)

/-! ## Resolved-symbol cache

Every interposed function in frfix.c holds a static function pointer and runs
`if (!real_func) real_func = dlsym(RTLD_NEXT, "...");` on entry.  A slot is a
pointer value (`0` = NULL = unresolved); one call of the pattern is
`resolve_step`, returning the new slot value and whether a dlsym lookup
happened. -/

/-- One execution of the lazy-resolution pattern guarding a cache slot:
`lookup` is what `dlsym` would return, `slot` the current cached pointer. -/
def resolve_step (lookup slot : Nat) : Nat × Bool :=
  if slot = 0 then (lookup, true) else (slot, false)

/-- `n` successive calls of an interposed function, starting from the
zero-initialized (NULL) slot: final slot value and total dlsym-lookup count. -/
def run_resolves (lookup : Nat) : Nat → Nat × Nat
  | 0 => (0, 0)
  | n + 1 =>
    let prev := run_resolves lookup n
    let step := resolve_step lookup prev.1
    (step.1, prev.2 + (if step.2 then 1 else 0))

/-! ## Whole-shim state and the GLUT interceptors -/

/-- All process-wide mutable state of the shim: geometry, fullscreen flag,
the four stored application callbacks (abstract ids, none = not yet
registered), and the resolved-symbol cache slots. -/
structure ShimState where
  geom : Geom
  fs : Bool
  fr_callback : Option Nat
  fr_kbfunc : Option Nat
  fr_mousefunc : Option Nat
  fr_motionfunc : Option Nat
  slots : List Nat
deriving DecidableEq, Repr

/-- Embedding of the interposed `glViewport` from frfix.c (line 123), which is
`{ return; }`: result is the (unchanged) shim state and whether the call was
forwarded to the real library. -/
def glViewport (s : ShimState) (x y width height : Int) : ShimState × Bool :=
  (s, false)

/-- Embedding of the interposed `glutReshapeWindow` from frfix.c (line 124),
which is `{ return; }`: unchanged state, never forwarded. -/
def glutReshapeWindow (s : ShimState) (width height : Int) : ShimState × Bool :=
  (s, false)

/-- What the interposed `glutReshapeFunc` registers with the real toolkit. -/
inductive ReshapeReg where
  | internal : ReshapeReg
  | app : Nat → ReshapeReg
deriving DecidableEq, Repr

/-- Embedding of the interposed `glutReshapeFunc` from frfix.c (lines 117-121):
it calls `real_func(init_manglers)`, registering the shim's internal
handler; the application's `func` is not stored in any state and not
passed on. -/
def glutReshapeFunc (s : ShimState) (func : Nat) : ShimState × ReshapeReg :=
  (s, ReshapeReg.internal)

/-! # Helper lemmas on the geometry computation -/

theorem init_manglers_of_eq (w h : Int) (hc : w = c_div (h * 16) 9) :
    init_manglers w h = ⟨w, h, 0, 0⟩ := by
  unfold init_manglers
  rw [if_pos hc]

theorem init_manglers_of_lt (w h : Int) (hlt : w < c_div (h * 16) 9) :
    init_manglers w h
      = ⟨w, c_div (w * 9) 16, 0, c_div (h - c_div (w * 9) 16) 2⟩ := by
  unfold init_manglers
  rw [if_neg (ne_of_lt hlt), if_pos hlt]

theorem init_manglers_of_gt (w h : Int) (hgt : c_div (h * 16) 9 < w) :
    init_manglers w h
      = ⟨c_div (h * 16) 9, h, c_div (w - c_div (h * 16) 9) 2, 0⟩ := by
  unfold init_manglers
  rw [if_neg (ne_of_gt hgt), if_neg (not_lt.mpr (le_of_lt hgt))]

/-! # Theorems for the claims -/

/-- C1: for every positive window size (w,h), `init_manglers` computes a
rectangle whose sides are in 16:9 ratio up to integer truncation (one side is
obtained from the other by truncating division), which fits inside the window
(`act_xoff + act_w ≤ w` and `act_yoff + act_h ≤ h`), and whose offsets are the
centering offsets `(dimension - effective)/2` with C integer division. -/
theorem c1_geometry_correct (w h : Int) (hw : 0 < w) (hh : 0 < h) :
    ((init_manglers w h).act_w = c_div ((init_manglers w h).act_h * 16) 9 ∨
      (init_manglers w h).act_h = c_div ((init_manglers w h).act_w * 9) 16) ∧
    (init_manglers w h).act_xoff + (init_manglers w h).act_w ≤ w ∧
    (init_manglers w h).act_yoff + (init_manglers w h).act_h ≤ h ∧
    (init_manglers w h).act_xoff = c_div (w - (init_manglers w h).act_w) 2 ∧
    (init_manglers w h).act_yoff = c_div (h - (init_manglers w h).act_h) 2 := by
  have e9 : c_div (h * 16) 9 = h * 16 / 9 := c_div_eq_ediv (by omega) (by omega)
  have e16 : c_div (w * 9) 16 = w * 9 / 16 := c_div_eq_ediv (by omega) (by omega)
  rcases lt_trichotomy w (c_div (h * 16) 9) with hlt | heq | hgt
  · rw [init_manglers_of_lt w h hlt]
    dsimp only
    rw [e9] at hlt
    rw [e16]
    have hth : w * 9 / 16 < h := by omega
    rw [c_div_eq_ediv (show (0:Int) ≤ h - w * 9 / 16 by omega) (by omega),
        c_div_eq_ediv (show (0:Int) ≤ w - w by omega) (by omega)]
    exact ⟨Or.inr rfl, by omega, by omega, by omega, rfl⟩
  · rw [init_manglers_of_eq w h heq]
    dsimp only
    rw [c_div_eq_ediv (show (0:Int) ≤ w - w by omega) (by omega),
        c_div_eq_ediv (show (0:Int) ≤ h - h by omega) (by omega)]
    exact ⟨Or.inl heq, by omega, by omega, by omega, by omega⟩
  · rw [init_manglers_of_gt w h hgt]
    dsimp only
    rw [e9] at hgt ⊢
    rw [c_div_eq_ediv (show (0:Int) ≤ w - h * 16 / 9 by omega) (by omega),
        c_div_eq_ediv (show (0:Int) ≤ h - h by omega) (by omega)]
    exact ⟨Or.inl rfl, by omega, by omega, rfl, by omega⟩

/-- C1 witness: the property instantiated at the square window 1000×1000. -/
theorem c1_witness :
    ((init_manglers 1000 1000).act_w
        = c_div ((init_manglers 1000 1000).act_h * 16) 9 ∨
      (init_manglers 1000 1000).act_h
        = c_div ((init_manglers 1000 1000).act_w * 9) 16) ∧
    (init_manglers 1000 1000).act_xoff + (init_manglers 1000 1000).act_w ≤ 1000 ∧
    (init_manglers 1000 1000).act_yoff + (init_manglers 1000 1000).act_h ≤ 1000 ∧
    (init_manglers 1000 1000).act_xoff
        = c_div (1000 - (init_manglers 1000 1000).act_w) 2 ∧
    (init_manglers 1000 1000).act_yoff
        = c_div (1000 - (init_manglers 1000 1000).act_h) 2 :=
  c1_geometry_correct 1000 1000 (by decide) (by decide)

/-- C2: the three concrete geometry cases from the spec. -/
theorem c2_concrete_cases :
    init_manglers 1920 1080 = ⟨1920, 1080, 0, 0⟩ ∧
    init_manglers 1000 1000 = ⟨1000, 562, 0, 219⟩ ∧
    init_manglers 2000 900 = ⟨1600, 900, 200, 0⟩ := by
  refine ⟨?_, ?_, ?_⟩ <;> decide

/-- C3: on every tick of the wrapper audio callback, the combined
avail/delay query happens exactly once regardless of outcome; the stored
callback is invoked (exactly once, with the same handler) iff the queried
delay is strictly below FIXDELAY. -/
theorem c3_audio_trigger (fixdelay delay : Int) (ahandler : Nat) :
    (fake_callback fixdelay delay ahandler).count AudioCall.availDelay = 1 ∧
    (delay < fixdelay →
      fake_callback fixdelay delay ahandler
        = [AudioCall.availDelay, AudioCall.invokeFr ahandler]) ∧
    (fixdelay ≤ delay →
      fake_callback fixdelay delay ahandler = [AudioCall.availDelay]) := by
  by_cases hd : delay < fixdelay
  · refine ⟨?_, fun _ => ?_, fun hge => absurd hd (not_lt.mpr hge)⟩ <;>
      simp [fake_callback, hd]
  · refine ⟨?_, fun hlt => absurd hlt hd, fun _ => ?_⟩ <;>
      simp [fake_callback, hd]

/-- C3 witness: the property instantiated at FIXDELAY = 1024 and a tick
whose queried delay is 100. -/
theorem c3_witness :
    (fake_callback 1024 100 7).count AudioCall.availDelay = 1 ∧
    fake_callback 1024 100 7 = [AudioCall.availDelay, AudioCall.invokeFr 7] :=
  ⟨(c3_audio_trigger 1024 100 7).1, (c3_audio_trigger 1024 100 7).2.1 (by decide)⟩

/-- C4: the keyboard wrapper handles 'q' (113) by a single
glutLeaveMainLoop call and no forwarding, 'f' (102) by toggling the
fullscreen flag (real glutReshapeWindow(1280,720) when it was on, real
glutFullScreen when it was off, no forwarding), and forwards every other key
to the stored handler exactly once with unchanged arguments. -/
theorem c4_keyboard_remap (fs : Bool) (key : Nat) (x y : Int) :
    (key = 113 → faked_kbfunc fs key x y = (fs, [KbCall.leaveMainLoop])) ∧
    (key = 102 →
      faked_kbfunc fs key x y
        = if fs then (false, [KbCall.reshapeWindow 1280 720])
          else (true, [KbCall.fullScreen])) ∧
    (key ≠ 113 → key ≠ 102 →
      faked_kbfunc fs key x y = (fs, [KbCall.forward key x y])) := by
  refine ⟨fun h1 => ?_, fun h2 => ?_, fun h1 h2 => ?_⟩
  · subst h1
    simp [faked_kbfunc]
  · subst h2
    cases fs <;> simp [faked_kbfunc]
  · simp [faked_kbfunc, h1, h2]

/-- C4 witness: the property instantiated at key 'q' with the flag off. -/
theorem c4_witness : faked_kbfunc false 113 5 6 = (false, [KbCall.leaveMainLoop]) :=
  (c4_keyboard_remap false 113 5 6).1 rfl

/-- C5: the interposed snd_pcm_open forwards to the real function with the
caller's name replaced by "default" and pcm, stream, mode unchanged, and
returns exactly the real function's return value. -/
theorem c5_default_device (real_func : Nat → String → Int → Int → Int)
    (pcm : Nat) (name : String) (stream mode : Int) :
    snd_pcm_open real_func pcm name stream mode
      = (real_func pcm "default" stream mode, ⟨pcm, "default", stream, mode⟩) ∧
    (snd_pcm_open real_func pcm name stream mode).2.name = "default" ∧
    (snd_pcm_open real_func pcm name stream mode).2.pcm = pcm ∧
    (snd_pcm_open real_func pcm name stream mode).2.stream = stream ∧
    (snd_pcm_open real_func pcm name stream mode).2.mode = mode :=
  ⟨rfl, rfl, rfl, rfl, rfl⟩

/-- C6: the mouse wrappers forward coordinates shifted by exactly the stored
offsets, with button and state unchanged, and with zero offsets the remap is
the identity. -/
theorem c6_mouse_remap (xoff yoff button state x y : Int) :
    faked_mousefunc xoff yoff button state x y
      = (button, state, x - xoff, y - yoff) ∧
    faked_motionfunc xoff yoff x y = (x - xoff, y - yoff) ∧
    faked_mousefunc 0 0 button state x y = (button, state, x, y) ∧
    faked_motionfunc 0 0 x y = (x, y) := by
  refine ⟨rfl, rfl, ?_, ?_⟩ <;> simp [faked_mousefunc, faked_motionfunc]

/-- C7: a cache slot holding a non-null pointer is never re-resolved or
changed; starting from the NULL-initialized slot, any positive number of
calls performs exactly one dlsym lookup, caches its (non-null) result, and
the lookup count never exceeds one. -/
theorem c7_resolve_once (lookup : Nat) (hl : lookup ≠ 0) :
    (∀ slot, slot ≠ 0 → resolve_step lookup slot = (slot, false)) ∧
    (∀ n, 1 ≤ n → run_resolves lookup n = (lookup, 1)) ∧
    (∀ n, (run_resolves lookup n).2 ≤ 1) := by
  have hrun : ∀ n, 1 ≤ n → run_resolves lookup n = (lookup, 1) := by
    intro n hn
    induction n with
    | zero => omega
    | succ m ih =>
      rcases Nat.eq_zero_or_pos m with h0 | hm
      · subst h0
        simp [run_resolves, resolve_step]
      · simp [run_resolves, ih hm, resolve_step, hl]
  refine ⟨fun slot hs => by simp [resolve_step, hs], hrun, fun n => ?_⟩
  rcases Nat.eq_zero_or_pos n with h0 | hn
  · subst h0
    simp [run_resolves]
  · rw [hrun n hn]

/-- C7 witness: three calls with a dlsym result of 5 resolve exactly once. -/
theorem c7_witness : run_resolves 5 3 = (5, 1) :=
  (c7_resolve_once 5 (by decide)).2.1 3 (by decide)

/-- C8: the interposed glViewport and glutReshapeWindow are no-ops for every
argument: state untouched, never forwarded to the real library. -/
theorem c8_noop_suppression (s : ShimState) (x y width height rw rh : Int) :
    glViewport s x y width height = (s, false) ∧
    glutReshapeWindow s rw rh = (s, false) :=
  ⟨rfl, rfl⟩

/-- C9: the interposed glutReshapeFunc registers the shim's internal handler
with the real toolkit, leaves all shim state unchanged (the application's
handler is never stored), and its result does not depend on the
application-supplied handler at all. -/
theorem c9_reshape_discard (s : ShimState) (func func2 : Nat) :
    glutReshapeFunc s func = (s, ReshapeReg.internal) ∧
    glutReshapeFunc s func = glutReshapeFunc s func2 :=
  ⟨rfl, rfl⟩

/-- C10: after init_manglers on any positive window, at least one offset is
zero and all four stored geometry values are nonnegative; at process start
both offsets are zero. -/
theorem c10_offset_invariant (w h : Int) (hw : 0 < w) (hh : 0 < h) :
    ((init_manglers w h).act_xoff = 0 ∨ (init_manglers w h).act_yoff = 0) ∧
    0 ≤ (init_manglers w h).act_w ∧
    0 ≤ (init_manglers w h).act_h ∧
    0 ≤ (init_manglers w h).act_xoff ∧
    0 ≤ (init_manglers w h).act_yoff ∧
    initial_geom.act_xoff = 0 ∧ initial_geom.act_yoff = 0 := by
  have e9 : c_div (h * 16) 9 = h * 16 / 9 := c_div_eq_ediv (by omega) (by omega)
  have e16 : c_div (w * 9) 16 = w * 9 / 16 := c_div_eq_ediv (by omega) (by omega)
  rcases lt_trichotomy w (c_div (h * 16) 9) with hlt | heq | hgt
  · rw [init_manglers_of_lt w h hlt]
    dsimp only
    rw [e9] at hlt
    rw [e16]
    have hth : w * 9 / 16 < h := by omega
    rw [c_div_eq_ediv (show (0:Int) ≤ h - w * 9 / 16 by omega) (by omega)]
    exact ⟨Or.inl rfl, by omega, by omega, by omega, by omega, rfl, rfl⟩
  · rw [init_manglers_of_eq w h heq]
    dsimp only
    exact ⟨Or.inl rfl, by omega, by omega, by omega, by omega, rfl, rfl⟩
  · rw [init_manglers_of_gt w h hgt]
    dsimp only
    rw [e9] at hgt ⊢
    rw [c_div_eq_ediv (show (0:Int) ≤ w - h * 16 / 9 by omega) (by omega)]
    exact ⟨Or.inr rfl, by omega, by omega, by omega, by omega, rfl, rfl⟩

/-- C10 witness: the invariant instantiated at the wide window 2000×900. -/
theorem c10_witness :
    ((init_manglers 2000 900).act_xoff = 0 ∨ (init_manglers 2000 900).act_yoff = 0) ∧
    0 ≤ (init_manglers 2000 900).act_w ∧
    0 ≤ (init_manglers 2000 900).act_h ∧
    0 ≤ (init_manglers 2000 900).act_xoff ∧
    0 ≤ (init_manglers 2000 900).act_yoff ∧
    initial_geom.act_xoff = 0 ∧ initial_geom.act_yoff = 0 :=
  c10_offset_invariant 2000 900 (by decide) (by decide)
